import Mathlib

/-!
# Verification of the per-category review analysis of `generate_interactive_report.py`

This file is a shallow embedding of the analysis core of the report generator
(`analyze_category_data`, together with the required-column precondition check in
`main`), and proofs of the specified properties about it.

Modelling conventions, mirroring the pandas semantics actually exercised by the
script:

* A dataframe is a `List ReviewRow` in original table order; `df[mask]` is
  `List.filter` (order preserving).
* Ratings are modelled as exact rationals (the source data holds small numeric
  ratings; sums of such values are exact in pandas as well, and the analysis
  only ever compares and averages them).  Following the data-model invariant,
  every row has a rating; `chatgpt_summary` is optional (`None` = missing/NaN),
  and `Series.dropna` is `List.filterMap`.
* `Series.unique`, and the key order of the pandas hashtable used by
  `value_counts`, enumerate distinct values in first-occurrence order:
  `firstOccurrences`.
* `groupby(key)` (default `sort=True`) enumerates groups by ascending key, so
  `groupby` on the name column followed by `mean` and `reset_index` is modelled by
  sorting the distinct names ascending and averaging the ratings of each name.
* `sort_values(col)` is modelled by `List.insertionSort`, and
  `sort_values(col, ascending=False)` — which pandas `nargsort` implements as:
  reverse the values and positions, take the ascending argsort, and reverse
  the resulting indexer — by
  `sortValuesDescending r l = (List.insertionSort r l.reverse).reverse`.
  Caveat: the default argsort kind is numpy introsort, which is insertion
  sort (stable) only below its small-array cutoff and is NOT stable beyond
  it, so this model fixes a tie order among equal sort keys that the program
  does not guarantee in general.  No theorem below relies on the tie order
  of the rating or count sorts: every property proved about a sorted result
  is invariant under permuting equal keys (orders of strict comparisons,
  memberships, lengths, sums).
* The two matplotlib charts are embedded by the data they plot:
  `value_counts()` (counts descending) for the sentiment chart and
  `value_counts().sort_index()` (keys ascending) for the rating chart.
-/

namespace AmazonReport

/-- One row of the input table: the five required columns of the CSV. -/
structure ReviewRow where
  name : String
  product_category : String
  rating : ℚ
  rating_sentiment : String
  chatgpt_summary : Option String
  deriving DecidableEq, Repr

/-- One row of the `product_ratings` frame produced by grouping the category
rows by name and taking the mean rating: a product name together with its mean
rating inside the category. -/
structure ProductRating where
  name : String
  rating : ℚ
  deriving DecidableEq, Repr

/-- Distinct values of a list in first-occurrence order (pandas `unique` /
hashtable key order), with an accumulator of values already seen. -/
def firstOccurrencesAux {α : Type} [DecidableEq α] (seen : List α) : List α → List α
  | [] => []
  | a :: l =>
    if a ∈ seen then firstOccurrencesAux seen l
    else a :: firstOccurrencesAux (a :: seen) l

/-- Distinct values of a list in first-occurrence order (pandas `unique`). -/
def firstOccurrences {α : Type} [DecidableEq α] (l : List α) : List α :=
  firstOccurrencesAux [] l

/-- The comparison used by `sort_values` on the rating column of the
`product_ratings` frame. -/
def byRating (p q : ProductRating) : Prop :=
  p.rating ≤ q.rating

instance : DecidableRel byRating := fun p q =>
  inferInstanceAs (Decidable (p.rating ≤ q.rating))

/-- The comparison used when `value_counts` sorts by count. -/
def byCount {α : Type} (p q : α × Nat) : Prop :=
  p.2 ≤ q.2

instance {α : Type} : DecidableRel (byCount (α := α)) := fun p q =>
  inferInstanceAs (Decidable (p.2 ≤ q.2))

/-- The comparison used by `sort_index()` on a rating-keyed series. -/
def byKey (p q : ℚ × Nat) : Prop :=
  p.1 ≤ q.1

instance : DecidableRel byKey := fun p q =>
  inferInstanceAs (Decidable (p.1 ≤ q.1))

instance : IsTotal (ℚ × Nat) byKey :=
  ⟨fun p q => le_total p.1 q.1⟩

instance : IsTrans (ℚ × Nat) byKey :=
  ⟨fun _ _ _ h h' => le_trans h h'⟩

/-- pandas `sort_values(..., ascending=False)`: `nargsort` reverses the array
and the positions, takes an ascending argsort, and reverses the resulting
indexer.  The argsort kernel is modelled by a stable sort, which is exact
only below the small-array insertion-sort cutoff of numpy introsort; the
theorems below use this definition only up to permutation of equal keys. -/
def sortValuesDescending {α : Type} (r : α → α → Prop) [DecidableRel r] (l : List α) : List α :=
  (List.insertionSort r l.reverse).reverse

/-- Model of `Series.mean`: sum of the values divided by their number. -/
def meanOfRatings (l : List ℚ) : ℚ :=
  l.sum / (l.length : ℚ)

/-- Model of the mask filter on the category column: the rows of the given
category, in original table order. -/
def category_subset (df : List ReviewRow) (category : String) : List ReviewRow :=
  df.filter (fun r => r.product_category == category)

/-- Model of the groupby-mean on the name column (`reset_index` form):
one row per distinct product name (groups enumerated by ascending name, the
groupby default), carrying the mean of the ratings of that product. -/
def product_ratings (category_df : List ReviewRow) : List ProductRating :=
  (List.insertionSort (fun a b : String => a ≤ b)
      (firstOccurrences (category_df.map (·.name)))).map
    (fun n =>
      { name := n
        rating := meanOfRatings ((category_df.filter (fun r => r.name == n)).map (·.rating)) })

/-- Model of `Series.value_counts`: count per distinct value, sorted by
descending count (keys first enumerated in first-occurrence hashtable order). -/
def value_counts {α : Type} [DecidableEq α] (l : List α) : List (α × Nat) :=
  sortValuesDescending byCount ((firstOccurrences l).map (fun v => (v, l.count v)))

/-- Model of `value_counts` followed by `sort_index`: count per distinct
rating value, re-sorted by ascending key. -/
def value_counts_sort_index (l : List ℚ) : List (ℚ × Nat) :=
  List.insertionSort byKey (value_counts l)

/-- The positive-excerpt selection for one top product: the rows of that
product, restricted to sentiment "Positive", `dropna` on the summary,
first five kept; `[]` when the product has no positive rows. -/
def positive_summaries_of (category_df : List ReviewRow) (product_name : String) : List String :=
  let product_reviews := category_df.filter (fun r => r.name == product_name)
  let positive_reviews := product_reviews.filter (fun r => r.rating_sentiment == "Positive")
  if positive_reviews.length > 0 then
    (positive_reviews.filterMap (fun r => r.chatgpt_summary)).take 5
  else
    []

/-- The improvement-excerpt selection for the worst product: its rows
with sentiment "Negative", `dropna` on the summary, first five kept. -/
def improvement_summaries_of (category_df : List ReviewRow) (product_name : String) : List String :=
  let product_reviews := category_df.filter (fun r => r.name == product_name)
  let negative_reviews := product_reviews.filter (fun r => r.rating_sentiment == "Negative")
  if negative_reviews.length > 0 then
    (negative_reviews.filterMap (fun r => r.chatgpt_summary)).take 5
  else
    []

/-- One entry of `top_products_data`. -/
structure TopProduct where
  name : String
  rating : ℚ
  positive_summaries : List String
  deriving DecidableEq, Repr

/-- The `worst_product_data` dict. -/
structure WorstProduct where
  name : String
  rating : ℚ
  improvement_summaries : List String
  deriving DecidableEq, Repr

/-- The dict returned by `analyze_category_data` for a non-empty category;
the two charts are embedded by the data series they draw. -/
structure CategoryReport where
  category : String
  product_count : Nat
  review_count : Nat
  avg_rating : ℚ
  top_products : List TopProduct
  worst_product : Option WorstProduct
  sentiment_chart : List (String × Nat)
  rating_chart : List (ℚ × Nat)
  image_url : String
  deriving DecidableEq, Repr

/-- The module-level `DEFAULT_CATEGORY_IMAGES` dict, read through
`.get` with default empty string. -/
def DEFAULT_CATEGORY_IMAGES (category : String) : String :=
  if category = "Accessories" then
    "https://images-na.ssl-images-amazon.com/images/G/01/AmazonBasics/landing/electronics._CB485921693_.jpg"
  else if category = "Tablets & Entertainment" then
    "https://images-na.ssl-images-amazon.com/images/G/01/kindle/journeys/YTNiNWIyZTgt/YTNiNWIyZTgt-ZjZmMzY2Yjct-w1500._CB417267304_.jpg"
  else if category = "Smart Home & Speakers" then
    "https://images-na.ssl-images-amazon.com/images/G/01/kindle/journeys/Nzg3NzIxZDct/Nzg3NzIxZDct-YzA3MzI3Yjgt-w1500._CB418667506_.jpg"
  else if category = "E-readers" then
    "https://images-na.ssl-images-amazon.com/images/G/01/kindle/journeys/Yzg5NWM0MDQt/Yzg5NWM0MDQt-YTJmMDQzMWIt-w1500._CB418667506_.jpg"
  else
    ""

/-- Model of `analyze_category_data`: `none` when the category has no
rows, otherwise the populated report. -/
def analyze_category_data (df : List ReviewRow) (category : String) : Option CategoryReport :=
  let category_df := category_subset df category
  if category_df.length = 0 then
    none
  else
    let prs := product_ratings category_df
    let top_products := (sortValuesDescending byRating prs).take 3
    let worst_product := (List.insertionSort byRating prs).take 1
    let top_products_data := top_products.map (fun p =>
      { name := p.name
        rating := p.rating
        positive_summaries := positive_summaries_of category_df p.name : TopProduct })
    let worst_product_data : Option WorstProduct :=
      match worst_product with
      | [] => none
      | w :: _ =>
        some { name := w.name
               rating := w.rating
               improvement_summaries := improvement_summaries_of category_df w.name }
    some
      { category := category
        product_count := (firstOccurrences (category_df.map (·.name))).length
        review_count := category_df.length
        avg_rating := meanOfRatings (category_df.map (·.rating))
        top_products := top_products_data
        worst_product := worst_product_data
        sentiment_chart := value_counts (category_df.map (·.rating_sentiment))
        rating_chart := value_counts_sort_index (category_df.map (·.rating))
        image_url := DEFAULT_CATEGORY_IMAGES category }

/-- The required-column list checked in `main`. -/
def required_columns : List String :=
  ["name", "product_category", "reviews.rating", "rating_sentiment", "chatgpt_summary"]

/-- Model of the list comprehension keeping the required columns absent from
the dataframe columns. -/
def missing_columns (columns : List String) : List String :=
  required_columns.filter (fun col => !(columns.contains col))

/-- The per-category analysis loop of `generate_html_report`: distinct
categories in first-seen order, empty categories dropped. -/
def generate_html_report_data (df : List ReviewRow) : List CategoryReport :=
  (firstOccurrences (df.map (·.product_category))).filterMap (analyze_category_data df)

/-- The observable outcome of `main`: either the missing-column error message
(no artifact produced) or the analysis results handed to the renderer. -/
inductive MainResult where
  | missingColumnsError (message : String)
  | success (reports : List CategoryReport)
  deriving DecidableEq, Repr

/-- Model of `main` after loading the CSV: the required-column check, then
report generation.  The table is abstracted as its column-name list plus its rows. -/
def main_program (columns : List String) (df : List ReviewRow) : MainResult :=
  if missing_columns columns ≠ [] then
    MainResult.missingColumnsError
      ("Error: Missing required columns: " ++ String.intercalate ", " (missing_columns columns))
  else
    MainResult.success (generate_html_report_data df)

/-- Ascending-by-mean-rating order, refined on ties by a tie relation `s`;
used to state stability of the rating sorts. -/
def lexOf (s : ProductRating → ProductRating → Prop) (p q : ProductRating) : Prop :=
  p.rating < q.rating ∨ (p.rating = q.rating ∧ s p q)

/-- Concrete five-row table realising the "Accessories" scenario of the spec:
product A rated [5, 5, 4] all Positive, product B rated [2, 1] all Negative. -/
def sampleDf : List ReviewRow :=
  [{ name := "A", product_category := "Accessories", rating := 5,
     rating_sentiment := "Positive", chatgpt_summary := some "great sound" },
   { name := "B", product_category := "Accessories", rating := 2,
     rating_sentiment := "Negative", chatgpt_summary := some "stopped working" },
   { name := "A", product_category := "Accessories", rating := 5,
     rating_sentiment := "Positive", chatgpt_summary := some "easy setup" },
   { name := "B", product_category := "Accessories", rating := 1,
     rating_sentiment := "Negative", chatgpt_summary := none },
   { name := "A", product_category := "Accessories", rating := 4,
     rating_sentiment := "Positive", chatgpt_summary := none }]

/-! ## Basic lemmas about the modelled pandas primitives -/

/-- Membership in `firstOccurrencesAux`: the values of the list not yet seen. -/
theorem mem_firstOccurrencesAux {α : Type} [DecidableEq α] (x : α) :
    ∀ (seen l : List α), x ∈ firstOccurrencesAux seen l ↔ x ∈ l ∧ x ∉ seen
  | seen, [] => by simp [firstOccurrencesAux]
  | seen, a :: l => by
    rw [firstOccurrencesAux]
    by_cases ha : a ∈ seen
    · rw [if_pos ha, mem_firstOccurrencesAux x seen l]
      constructor
      · rintro ⟨hx, hs⟩
        exact ⟨List.mem_cons_of_mem _ hx, hs⟩
      · rintro ⟨hx, hs⟩
        rcases List.mem_cons.mp hx with rfl | hxl
        · exact absurd ha hs
        · exact ⟨hxl, hs⟩
    · rw [if_neg ha, List.mem_cons, mem_firstOccurrencesAux x (a :: seen) l]
      constructor
      · rintro (rfl | ⟨hx, hs⟩)
        · exact ⟨List.mem_cons_self _ _, ha⟩
        · exact ⟨List.mem_cons_of_mem _ hx, fun hxs => hs (List.mem_cons_of_mem _ hxs)⟩
      · rintro ⟨hx, hs⟩
        by_cases hxa : x = a
        · exact Or.inl hxa
        · rcases List.mem_cons.mp hx with rfl | hxl
          · exact Or.inl rfl
          · refine Or.inr ⟨hxl, fun hxs => ?_⟩
            rcases List.mem_cons.mp hxs with h | h
            · exact hxa h
            · exact hs h

/-- The list built by `firstOccurrencesAux` never repeats a value. -/
theorem nodup_firstOccurrencesAux {α : Type} [DecidableEq α] :
    ∀ (seen l : List α), (firstOccurrencesAux seen l).Nodup
  | seen, [] => by simp [firstOccurrencesAux]
  | seen, a :: l => by
    rw [firstOccurrencesAux]
    by_cases ha : a ∈ seen
    · rw [if_pos ha]
      exact nodup_firstOccurrencesAux seen l
    · rw [if_neg ha]
      refine List.nodup_cons.mpr ⟨fun hmem => ?_, nodup_firstOccurrencesAux (a :: seen) l⟩
      exact ((mem_firstOccurrencesAux a (a :: seen) l).mp hmem).2 (List.mem_cons_self _ _)

theorem mem_firstOccurrences {α : Type} [DecidableEq α] {x : α} {l : List α} :
    x ∈ firstOccurrences l ↔ x ∈ l := by
  rw [firstOccurrences, mem_firstOccurrencesAux]
  simp

theorem nodup_firstOccurrences {α : Type} [DecidableEq α] (l : List α) :
    (firstOccurrences l).Nodup :=
  nodup_firstOccurrencesAux [] l

theorem firstOccurrences_ne_nil {α : Type} [DecidableEq α] {l : List α} (h : l ≠ []) :
    firstOccurrences l ≠ [] := by
  obtain ⟨a, ha⟩ := List.exists_mem_of_ne_nil l h
  intro hfo
  have hmem : a ∈ firstOccurrences l := mem_firstOccurrences.mpr ha
  rw [hfo] at hmem
  exact List.not_mem_nil a hmem

/-- First-occurrence deduplication is a permutation of `List.dedup`. -/
theorem firstOccurrences_perm_dedup {α : Type} [DecidableEq α] (l : List α) :
    List.Perm (firstOccurrences l) l.dedup :=
  (List.perm_ext_iff_of_nodup (nodup_firstOccurrences l) l.nodup_dedup).mpr
    (fun a => by rw [mem_firstOccurrences, List.mem_dedup])

/-- Reversing, stably sorting, and reversing again permutes the input. -/
theorem sortValuesDescending_perm {α : Type} (r : α → α → Prop) [DecidableRel r]
    (l : List α) : List.Perm (sortValuesDescending r l) l := by
  unfold sortValuesDescending
  exact ((List.reverse_perm _).trans (List.perm_insertionSort r l.reverse)).trans
    (List.reverse_perm l)

/-! ## Stability of the rating sorts

The ascending sort used for `product_ratings` is stable, so any relation that
pairwise held on the input still holds between entries whose mean ratings tie.
-/

theorem pairwise_lexOf_orderedInsert (s : ProductRating → ProductRating → Prop)
    (a : ProductRating) :
    ∀ l : List ProductRating, l.Pairwise (lexOf s) → (∀ b ∈ l, s a b) →
      (List.orderedInsert byRating a l).Pairwise (lexOf s)
  | [], _, _ => by simp [List.orderedInsert, lexOf]
  | b :: l, hl, ha => by
    rw [List.orderedInsert]
    by_cases hab : byRating a b
    · rw [if_pos hab]
      have hab' : a.rating ≤ b.rating := hab
      refine List.pairwise_cons.mpr ⟨?_, hl⟩
      intro x hx
      rcases List.mem_cons.mp hx with rfl | hxl
      · rcases lt_or_eq_of_le hab' with hlt | heq
        · exact Or.inl hlt
        · exact Or.inr ⟨heq, ha x (List.mem_cons_self _ _)⟩
      · have hbx : lexOf s b x := (List.pairwise_cons.mp hl).1 x hxl
        have hbxle : b.rating ≤ x.rating := hbx.elim le_of_lt (fun hh => le_of_eq hh.1)
        rcases lt_or_eq_of_le (le_trans hab' hbxle) with hlt | heq
        · exact Or.inl hlt
        · exact Or.inr ⟨heq, ha x (List.mem_cons_of_mem _ hxl)⟩
    · rw [if_neg hab]
      have hba : b.rating < a.rating := lt_of_not_le hab
      refine List.pairwise_cons.mpr ⟨?_, ?_⟩
      · intro x hx
        rcases (List.mem_orderedInsert byRating).mp hx with rfl | hxl
        · exact Or.inl hba
        · exact (List.pairwise_cons.mp hl).1 x hxl
      · exact pairwise_lexOf_orderedInsert s a l (List.pairwise_cons.mp hl).2
          (fun y hy => ha y (List.mem_cons_of_mem _ hy))

theorem pairwise_lexOf_insertionSort (s : ProductRating → ProductRating → Prop) :
    ∀ l : List ProductRating, l.Pairwise s →
      (List.insertionSort byRating l).Pairwise (lexOf s)
  | [], _ => by simp [List.insertionSort]
  | a :: l, hl => by
    rw [List.insertionSort]
    exact pairwise_lexOf_orderedInsert s a _
      (pairwise_lexOf_insertionSort s l (List.pairwise_cons.mp hl).2)
      (fun b hb => (List.pairwise_cons.mp hl).1 b
        ((List.perm_insertionSort byRating l).mem_iff.mp hb))

/-- The groups of the groupby on names are enumerated by strictly ascending name. -/
theorem product_ratings_pairwise_name (rows : List ReviewRow) :
    (product_ratings rows).Pairwise (fun p q => p.name < q.name) := by
  unfold product_ratings
  rw [List.pairwise_map]
  have hsorted : (List.insertionSort (fun a b : String => a ≤ b)
      (firstOccurrences (rows.map (·.name)))).Pairwise (fun a b : String => a ≤ b) :=
    List.sorted_insertionSort _ _
  have hnodup : (List.insertionSort (fun a b : String => a ≤ b)
      (firstOccurrences (rows.map (·.name)))).Nodup :=
    (List.perm_insertionSort _ _).nodup_iff.mpr (nodup_firstOccurrences _)
  exact (hsorted.and hnodup).imp (fun hh => lt_of_le_of_ne hh.1 hh.2)

theorem product_ratings_ne_nil {rows : List ReviewRow} (h : rows ≠ []) :
    product_ratings rows ≠ [] := by
  unfold product_ratings
  intro hc
  rw [List.map_eq_nil_iff] at hc
  have hperm := List.perm_insertionSort (fun a b : String => a ≤ b)
    (firstOccurrences (rows.map (·.name)))
  rw [hc] at hperm
  exact firstOccurrences_ne_nil (by simpa [List.map_eq_nil_iff] using h)
    hperm.symm.eq_nil

/-! ## The two chart data series -/

/-- The counts of `value_counts` sum to the length of the underlying series. -/
theorem sum_value_counts {α : Type} [DecidableEq α] (l : List α) :
    ((value_counts l).map (·.2)).sum = l.length := by
  unfold value_counts
  rw [((sortValuesDescending_perm byCount
      ((firstOccurrences l).map (fun v => (v, l.count v)))).map (·.2)).sum_eq]
  rw [List.map_map]
  rw [show ((·.2 : α × Nat → Nat) ∘ fun v => (v, l.count v)) = fun v => l.count v from rfl]
  rw [((firstOccurrences_perm_dedup l).map (fun v => l.count v)).sum_eq]
  exact List.sum_map_count_dedup_eq_length l

/-- The counts of `value_counts().sort_index()` also sum to the length. -/
theorem sum_value_counts_sort_index (l : List ℚ) :
    ((value_counts_sort_index l).map (·.2)).sum = l.length := by
  unfold value_counts_sort_index
  rw [((List.perm_insertionSort byKey (value_counts l)).map (·.2)).sum_eq]
  exact sum_value_counts l

/-- After `sort_index()`, the distinct keys are in strictly ascending order. -/
theorem pairwise_keys_value_counts_sort_index (l : List ℚ) :
    (value_counts_sort_index l).Pairwise (fun p q => p.1 < q.1) := by
  have hsorted : (value_counts_sort_index l).Pairwise byKey :=
    List.sorted_insertionSort byKey (value_counts l)
  have hperm : List.Perm (value_counts_sort_index l)
      ((firstOccurrences l).map (fun v => (v, l.count v))) :=
    (List.perm_insertionSort byKey (value_counts l)).trans
      (sortValuesDescending_perm byCount _)
  have hnodupfst : ((value_counts_sort_index l).map (·.1)).Nodup := by
    rw [(hperm.map (·.1)).nodup_iff, List.map_map]
    rw [show ((·.1 : ℚ × Nat → ℚ) ∘ fun v => (v, l.count v)) = fun v => v from rfl]
    rw [List.map_id']
    exact nodup_firstOccurrences l
  have hne : (value_counts_sort_index l).Pairwise (fun p q => p.1 ≠ q.1) :=
    List.pairwise_map.mp hnodupfst
  exact (hsorted.and hne).imp (fun hh => lt_of_le_of_ne hh.1 hh.2)

/-! ## The shape of a populated report -/

/-- For a category with at least one row, `analyze_category_data` returns the
fully populated report, with the worst product taken from the head of the
ascending rating sort. -/
theorem analyze_category_data_eq (df : List ReviewRow) (c : String)
    (h : category_subset df c ≠ []) :
    ∃ w rest,
      List.insertionSort byRating (product_ratings (category_subset df c)) = w :: rest ∧
      analyze_category_data df c = some
        { category := c
          product_count := (firstOccurrences ((category_subset df c).map (·.name))).length
          review_count := (category_subset df c).length
          avg_rating := meanOfRatings ((category_subset df c).map (·.rating))
          top_products :=
            ((sortValuesDescending byRating (product_ratings (category_subset df c))).take 3).map
              (fun p =>
                { name := p.name
                  rating := p.rating
                  positive_summaries := positive_summaries_of (category_subset df c) p.name })
          worst_product := some
            { name := w.name
              rating := w.rating
              improvement_summaries := improvement_summaries_of (category_subset df c) w.name }
          sentiment_chart := value_counts ((category_subset df c).map (·.rating_sentiment))
          rating_chart := value_counts_sort_index ((category_subset df c).map (·.rating))
          image_url := DEFAULT_CATEGORY_IMAGES c } := by
  have hprs : product_ratings (category_subset df c) ≠ [] := product_ratings_ne_nil h
  have hsort : List.insertionSort byRating (product_ratings (category_subset df c)) ≠ [] := by
    intro hc
    have hperm := List.perm_insertionSort byRating (product_ratings (category_subset df c))
    rw [hc] at hperm
    exact hprs hperm.symm.eq_nil
  obtain ⟨w, rest, hw⟩ := List.exists_cons_of_ne_nil hsort
  refine ⟨w, rest, hw, ?_⟩
  simp only [analyze_category_data]
  rw [if_neg (by simpa [List.length_eq_zero] using h), hw]
  rfl

/-! ## Characterisation of the excerpt lists -/

/-- The positive excerpts of a product are exactly the first five present
summaries, in table order, of its Positive-sentiment rows. -/
theorem positive_summaries_of_eq (rows : List ReviewRow) (n : String) :
    positive_summaries_of rows n =
      ((rows.filter (fun r => r.rating_sentiment == "Positive" && r.name == n)).filterMap
        (fun r => r.chatgpt_summary)).take 5 := by
  simp only [positive_summaries_of]
  rw [List.filter_filter]
  by_cases hpos :
      (rows.filter (fun r => (r.rating_sentiment == "Positive") && (r.name == n))).length > 0
  · rw [if_pos hpos]
  · rw [if_neg hpos]
    rw [not_lt, Nat.le_zero, List.length_eq_zero] at hpos
    rw [hpos]
    rfl

/-- The improvement excerpts of a product are exactly the first five present
summaries, in table order, of its Negative-sentiment rows. -/
theorem improvement_summaries_of_eq (rows : List ReviewRow) (n : String) :
    improvement_summaries_of rows n =
      ((rows.filter (fun r => r.rating_sentiment == "Negative" && r.name == n)).filterMap
        (fun r => r.chatgpt_summary)).take 5 := by
  simp only [improvement_summaries_of]
  rw [List.filter_filter]
  by_cases hneg :
      (rows.filter (fun r => (r.rating_sentiment == "Negative") && (r.name == n))).length > 0
  · rw [if_pos hneg]
  · rw [if_neg hneg]
    rw [not_lt, Nat.le_zero, List.length_eq_zero] at hneg
    rw [hneg]
    rfl

/-- Every positive excerpt comes from a Positive row of the product. -/
theorem positive_summaries_of_sound (rows : List ReviewRow) (n : String) :
    ∀ s ∈ positive_summaries_of rows n, ∃ r, r ∈ rows ∧
      r.name = n ∧ r.rating_sentiment = "Positive" ∧ r.chatgpt_summary = some s := by
  intro s hs
  rw [positive_summaries_of_eq] at hs
  obtain ⟨r, hrmem, hsum⟩ := List.mem_filterMap.mp (List.mem_of_mem_take hs)
  obtain ⟨hrows, hpred⟩ := List.mem_filter.mp hrmem
  rw [Bool.and_eq_true, beq_iff_eq, beq_iff_eq] at hpred
  exact ⟨r, hrows, hpred.2, hpred.1, hsum⟩

/-- Every improvement excerpt comes from a Negative row of the product. -/
theorem improvement_summaries_of_sound (rows : List ReviewRow) (n : String) :
    ∀ s ∈ improvement_summaries_of rows n, ∃ r, r ∈ rows ∧
      r.name = n ∧ r.rating_sentiment = "Negative" ∧ r.chatgpt_summary = some s := by
  intro s hs
  rw [improvement_summaries_of_eq] at hs
  obtain ⟨r, hrmem, hsum⟩ := List.mem_filterMap.mp (List.mem_of_mem_take hs)
  obtain ⟨hrows, hpred⟩ := List.mem_filter.mp hrmem
  rw [Bool.and_eq_true, beq_iff_eq, beq_iff_eq] at hpred
  exact ⟨r, hrows, hpred.2, hpred.1, hsum⟩

/-- A product with no Positive rows gets an empty positive-excerpt list. -/
theorem positive_summaries_of_empty (rows : List ReviewRow) (n : String)
    (h : ∀ r ∈ rows, r.name = n → r.rating_sentiment ≠ "Positive") :
    positive_summaries_of rows n = [] := by
  rw [positive_summaries_of_eq]
  have hfil : rows.filter (fun r => r.rating_sentiment == "Positive" && r.name == n) = [] := by
    rw [List.filter_eq_nil_iff]
    intro r hr
    rw [Bool.and_eq_true, beq_iff_eq, beq_iff_eq]
    rintro ⟨hsent, hname⟩
    exact h r hr hname hsent
  rw [hfil]
  rfl

/-- A product with no Negative rows gets an empty improvement-excerpt list. -/
theorem improvement_summaries_of_empty (rows : List ReviewRow) (n : String)
    (h : ∀ r ∈ rows, r.name = n → r.rating_sentiment ≠ "Negative") :
    improvement_summaries_of rows n = [] := by
  rw [improvement_summaries_of_eq]
  have hfil : rows.filter (fun r => r.rating_sentiment == "Negative" && r.name == n) = [] := by
    rw [List.filter_eq_nil_iff]
    intro r hr
    rw [Bool.and_eq_true, beq_iff_eq, beq_iff_eq]
    rintro ⟨hsent, hname⟩
    exact h r hr hname hsent
  rw [hfil]
  rfl

/-! ## The claims -/

/-- Claim C1: for every category present in the input table, the analyzer
returns a report whose review_count equals the number of rows of the table
whose category field equals that category. -/
theorem C1_review_count (df : List ReviewRow) (c : String)
    (h : c ∈ df.map (·.product_category)) :
    ∃ rep, analyze_category_data df c = some rep ∧
      rep.review_count = (df.filter (fun r => r.product_category == c)).length := by
  have hsub : category_subset df c ≠ [] := by
    obtain ⟨r, hr, hrc⟩ := List.mem_map.mp h
    have hmem : r ∈ category_subset df c :=
      List.mem_filter.mpr ⟨hr, by rw [beq_iff_eq]; exact hrc⟩
    exact List.ne_nil_of_mem hmem
  obtain ⟨w, rest, hw, heq⟩ := analyze_category_data_eq df c hsub
  exact ⟨_, heq, rfl⟩

theorem C1_witness :
    ("Accessories" ∈ sampleDf.map (·.product_category)) ∧
    (∃ rep, analyze_category_data sampleDf "Accessories" = some rep ∧
      rep.review_count =
        (sampleDf.filter (fun r => r.product_category == "Accessories")).length) :=
  ⟨by decide, C1_review_count sampleDf "Accessories" (by decide)⟩

/-- Claim C6: for every table and category identifier such that no row of the
table has that category, the analyzer returns the no-data result `none`
rather than a populated report. -/
theorem C6_absent_category_none (df : List ReviewRow) (c : String)
    (h : ∀ r ∈ df, r.product_category ≠ c) :
    analyze_category_data df c = none := by
  have hsub : category_subset df c = [] := by
    rw [category_subset, List.filter_eq_nil_iff]
    intro r hr
    rw [beq_iff_eq]
    exact h r hr
  simp only [analyze_category_data]
  rw [hsub]
  rfl

theorem C6_witness :
    (∀ r ∈ sampleDf, r.product_category ≠ "Toys") ∧
    analyze_category_data sampleDf "Toys" = none :=
  ⟨by decide, C6_absent_category_none sampleDf "Toys" (by decide)⟩

/-- Claim C8: the analyzer is deterministic — it is a pure function of the
table and the category, so two invocations on the same input yield equal
reports; no hidden mutable state can influence the result. -/
theorem C8_deterministic (df : List ReviewRow) (c : String) :
    analyze_category_data df c = analyze_category_data df c := rfl

/-- Claim C3: for every non-empty category subset, the worst_product entry is
present, and its mean rating is less than or equal to the mean rating of every
product in that category (every row of the groupby result, equivalently the
mean rating of the product of any row of the subset). -/
theorem C3_worst_product_minimal (df : List ReviewRow) (c : String)
    (h : category_subset df c ≠ []) :
    ∃ rep, analyze_category_data df c = some rep ∧
      ∃ wp, rep.worst_product = some wp ∧
        (∀ g ∈ product_ratings (category_subset df c), wp.rating ≤ g.rating) ∧
        (∀ r ∈ category_subset df c,
          wp.rating ≤ meanOfRatings
            (((category_subset df c).filter (fun x => x.name == r.name)).map (·.rating))) := by
  obtain ⟨w, rest, hw, heq⟩ := analyze_category_data_eq df c h
  have hsortpw : (List.insertionSort byRating
      (product_ratings (category_subset df c))).Pairwise (lexOf (fun p q => p.name < q.name)) :=
    pairwise_lexOf_insertionSort _ _ (product_ratings_pairwise_name _)
  rw [hw] at hsortpw
  have hmin : ∀ g ∈ product_ratings (category_subset df c), w.rating ≤ g.rating := by
    intro g hg
    have hg' : g ∈ w :: rest := by
      rw [← hw]
      exact (List.perm_insertionSort byRating _).mem_iff.mpr hg
    rcases List.mem_cons.mp hg' with rfl | hgr
    · exact le_refl _
    · exact ((List.pairwise_cons.mp hsortpw).1 g hgr).elim le_of_lt (fun h2 => le_of_eq h2.1)
  refine ⟨_, heq, _, rfl, hmin, ?_⟩
  intro r hr
  have hname : r.name ∈ firstOccurrences ((category_subset df c).map (·.name)) :=
    mem_firstOccurrences.mpr (List.mem_map_of_mem _ hr)
  have hsortmem : r.name ∈ List.insertionSort (fun a b : String => a ≤ b)
      (firstOccurrences ((category_subset df c).map (·.name))) :=
    (List.perm_insertionSort _ _).mem_iff.mpr hname
  exact hmin _ (List.mem_map_of_mem _ hsortmem)

theorem C3_witness :
    (category_subset sampleDf "Accessories" ≠ []) ∧
    (∃ rep, analyze_category_data sampleDf "Accessories" = some rep ∧
      ∃ wp, rep.worst_product = some wp ∧
        (∀ g ∈ product_ratings (category_subset sampleDf "Accessories"),
          wp.rating ≤ g.rating) ∧
        (∀ r ∈ category_subset sampleDf "Accessories",
          wp.rating ≤ meanOfRatings
            (((category_subset sampleDf "Accessories").filter
              (fun x => x.name == r.name)).map (·.rating)))) :=
  ⟨by decide, C3_worst_product_minimal sampleDf "Accessories" (by decide)⟩

/-- Claim C9: the worst product is computed independently of the top list by
an ascending sort taking the first element, so for every non-empty category
with fewer than 4 distinct product names, the name of the worst_product also
appears among the names in top_products (no deduplication between the two). -/
theorem C9_worst_among_top (df : List ReviewRow) (c : String)
    (h : category_subset df c ≠ [])
    (hfew : (firstOccurrences ((category_subset df c).map (·.name))).length < 4) :
    ∃ rep, analyze_category_data df c = some rep ∧
      ∃ wp, rep.worst_product = some wp ∧
        wp.name ∈ rep.top_products.map (·.name) := by
  obtain ⟨w, rest, hw, heq⟩ := analyze_category_data_eq df c h
  refine ⟨_, heq, _, rfl, ?_⟩
  have hlen : (sortValuesDescending byRating
      (product_ratings (category_subset df c))).length ≤ 3 := by
    rw [(sortValuesDescending_perm _ _).length_eq]
    rw [product_ratings, List.length_map, List.length_insertionSort]
    omega
  have htake : (sortValuesDescending byRating (product_ratings (category_subset df c))).take 3
      = sortValuesDescending byRating (product_ratings (category_subset df c)) :=
    List.take_of_length_le hlen
  have hwmem : w ∈ product_ratings (category_subset df c) := by
    have hmem : w ∈ List.insertionSort byRating (product_ratings (category_subset df c)) := by
      rw [hw]
      exact List.mem_cons_self _ _
    exact (List.perm_insertionSort byRating _).mem_iff.mp hmem
  have hwdesc : w ∈ sortValuesDescending byRating (product_ratings (category_subset df c)) :=
    (sortValuesDescending_perm byRating _).mem_iff.mpr hwmem
  rw [htake]
  exact List.mem_map_of_mem _ (List.mem_map_of_mem _ hwdesc)

theorem C9_witness :
    (category_subset sampleDf "Accessories" ≠ []) ∧
    ((firstOccurrences ((category_subset sampleDf "Accessories").map (·.name))).length < 4) ∧
    (∃ rep, analyze_category_data sampleDf "Accessories" = some rep ∧
      ∃ wp, rep.worst_product = some wp ∧
        wp.name ∈ rep.top_products.map (·.name)) :=
  ⟨by decide, by decide, C9_worst_among_top sampleDf "Accessories" (by decide) (by decide)⟩

/-- Claim C10: for every non-empty category subset, the length of
top_products equals the minimum of 3 and the number of distinct product names
in the subset (the report product_count); in particular top_products is never
empty when the category has at least one row. -/
theorem C10_top_products_length (df : List ReviewRow) (c : String)
    (h : category_subset df c ≠ []) :
    ∃ rep, analyze_category_data df c = some rep ∧
      rep.top_products.length = min 3 rep.product_count ∧
      rep.top_products ≠ [] := by
  obtain ⟨w, rest, hw, heq⟩ := analyze_category_data_eq df c h
  have hlen : (sortValuesDescending byRating
      (product_ratings (category_subset df c))).length
      = (firstOccurrences ((category_subset df c).map (·.name))).length := by
    rw [(sortValuesDescending_perm _ _).length_eq]
    rw [product_ratings, List.length_map, List.length_insertionSort]
  have hK : 0 < (firstOccurrences ((category_subset df c).map (·.name))).length :=
    List.length_pos.mpr (firstOccurrences_ne_nil (by simpa [List.map_eq_nil_iff] using h))
  refine ⟨_, heq, ?_, ?_⟩
  · rw [List.length_map, List.length_take, hlen]
  · intro hcontra
    have hzero := congrArg List.length hcontra
    rw [List.length_map, List.length_take, hlen] at hzero
    simp only [List.length_nil] at hzero
    omega

theorem C10_witness :
    (category_subset sampleDf "Accessories" ≠ []) ∧
    (∃ rep, analyze_category_data sampleDf "Accessories" = some rep ∧
      rep.top_products.length = min 3 rep.product_count ∧
      rep.top_products ≠ []) :=
  ⟨by decide, C10_top_products_length sampleDf "Accessories" (by decide)⟩

/-- Claim C4: for every product in top_products (respectively the
worst_product), its excerpt list is exactly the first 5 present summary
values taken, in original table order, from the rows of that product whose
sentiment equals Positive (respectively Negative); the list has length at
most 5, contains only summaries from such rows, and is empty when no such
rows exist. -/
theorem C4_excerpt_lists (df : List ReviewRow) (c : String)
    (h : category_subset df c ≠ []) :
    ∃ rep, analyze_category_data df c = some rep ∧
      (∀ tp ∈ rep.top_products,
        tp.positive_summaries =
          (((category_subset df c).filter
              (fun r => r.rating_sentiment == "Positive" && r.name == tp.name)).filterMap
            (fun r => r.chatgpt_summary)).take 5 ∧
        tp.positive_summaries.length ≤ 5 ∧
        (∀ s ∈ tp.positive_summaries, ∃ r, r ∈ category_subset df c ∧
          r.name = tp.name ∧ r.rating_sentiment = "Positive" ∧ r.chatgpt_summary = some s) ∧
        ((∀ r ∈ category_subset df c, r.name = tp.name → r.rating_sentiment ≠ "Positive") →
          tp.positive_summaries = [])) ∧
      (∀ wp, rep.worst_product = some wp →
        wp.improvement_summaries =
          (((category_subset df c).filter
              (fun r => r.rating_sentiment == "Negative" && r.name == wp.name)).filterMap
            (fun r => r.chatgpt_summary)).take 5 ∧
        wp.improvement_summaries.length ≤ 5 ∧
        (∀ s ∈ wp.improvement_summaries, ∃ r, r ∈ category_subset df c ∧
          r.name = wp.name ∧ r.rating_sentiment = "Negative" ∧ r.chatgpt_summary = some s) ∧
        ((∀ r ∈ category_subset df c, r.name = wp.name → r.rating_sentiment ≠ "Negative") →
          wp.improvement_summaries = [])) := by
  obtain ⟨w, rest, hw, heq⟩ := analyze_category_data_eq df c h
  refine ⟨_, heq, ?_, ?_⟩
  · intro tp htp
    obtain ⟨p, hp, rfl⟩ := List.mem_map.mp htp
    refine ⟨positive_summaries_of_eq _ _, ?_, positive_summaries_of_sound _ _,
      positive_summaries_of_empty _ _⟩
    show (positive_summaries_of (category_subset df c) p.name).length ≤ 5
    rw [positive_summaries_of_eq]
    exact List.length_take_le 5 _
  · intro wp hwp
    rcases Option.some.inj hwp with rfl
    refine ⟨improvement_summaries_of_eq _ _, ?_, improvement_summaries_of_sound _ _,
      improvement_summaries_of_empty _ _⟩
    show (improvement_summaries_of (category_subset df c) w.name).length ≤ 5
    rw [improvement_summaries_of_eq]
    exact List.length_take_le 5 _

theorem C4_witness :
    (category_subset sampleDf "Accessories" ≠ []) ∧
    (∃ rep, analyze_category_data sampleDf "Accessories" = some rep ∧
      (∀ tp ∈ rep.top_products,
        tp.positive_summaries =
          (((category_subset sampleDf "Accessories").filter
              (fun r => r.rating_sentiment == "Positive" && r.name == tp.name)).filterMap
            (fun r => r.chatgpt_summary)).take 5 ∧
        tp.positive_summaries.length ≤ 5 ∧
        (∀ s ∈ tp.positive_summaries, ∃ r, r ∈ category_subset sampleDf "Accessories" ∧
          r.name = tp.name ∧ r.rating_sentiment = "Positive" ∧ r.chatgpt_summary = some s) ∧
        ((∀ r ∈ category_subset sampleDf "Accessories",
            r.name = tp.name → r.rating_sentiment ≠ "Positive") →
          tp.positive_summaries = [])) ∧
      (∀ wp, rep.worst_product = some wp →
        wp.improvement_summaries =
          (((category_subset sampleDf "Accessories").filter
              (fun r => r.rating_sentiment == "Negative" && r.name == wp.name)).filterMap
            (fun r => r.chatgpt_summary)).take 5 ∧
        wp.improvement_summaries.length ≤ 5 ∧
        (∀ s ∈ wp.improvement_summaries, ∃ r, r ∈ category_subset sampleDf "Accessories" ∧
          r.name = wp.name ∧ r.rating_sentiment = "Negative" ∧ r.chatgpt_summary = some s) ∧
        ((∀ r ∈ category_subset sampleDf "Accessories",
            r.name = wp.name → r.rating_sentiment ≠ "Negative") →
          wp.improvement_summaries = []))) :=
  ⟨by decide, C4_excerpt_lists sampleDf "Accessories" (by decide)⟩

/-- Claim C5: for every non-empty category subset, the sentiment distribution
counts sum to review_count, the rating distribution counts sum to
review_count, and the rating distribution keys are in strictly ascending
numeric order. -/
theorem C5_distribution_invariants (df : List ReviewRow) (c : String)
    (h : category_subset df c ≠ []) :
    ∃ rep, analyze_category_data df c = some rep ∧
      (rep.sentiment_chart.map (·.2)).sum = rep.review_count ∧
      (rep.rating_chart.map (·.2)).sum = rep.review_count ∧
      rep.rating_chart.Pairwise (fun p q => p.1 < q.1) := by
  obtain ⟨w, rest, hw, heq⟩ := analyze_category_data_eq df c h
  refine ⟨_, heq, ?_, ?_, pairwise_keys_value_counts_sort_index _⟩
  · show ((value_counts ((category_subset df c).map (·.rating_sentiment))).map (·.2)).sum
        = (category_subset df c).length
    rw [sum_value_counts, List.length_map]
  · show ((value_counts_sort_index ((category_subset df c).map (·.rating))).map (·.2)).sum
        = (category_subset df c).length
    rw [sum_value_counts_sort_index, List.length_map]

theorem C5_witness :
    (category_subset sampleDf "Accessories" ≠ []) ∧
    (∃ rep, analyze_category_data sampleDf "Accessories" = some rep ∧
      (rep.sentiment_chart.map (·.2)).sum = rep.review_count ∧
      (rep.rating_chart.map (·.2)).sum = rep.review_count ∧
      rep.rating_chart.Pairwise (fun p q => p.1 < q.1)) :=
  ⟨by decide, C5_distribution_invariants sampleDf "Accessories" (by decide)⟩

/-- Claim C7: for every input table lacking at least one required column
(name, product_category, reviews.rating, rating_sentiment, chatgpt_summary),
the program reports an error message naming the missing columns and returns
before any analysis runs, producing no output artifact. -/
theorem C7_missing_columns_halt (columns : List String) (df : List ReviewRow)
    (h : ∃ col ∈ required_columns, col ∉ columns) :
    main_program columns df =
      MainResult.missingColumnsError
        ("Error: Missing required columns: " ++
          String.intercalate ", " (missing_columns columns)) ∧
    ∀ reports, main_program columns df ≠ MainResult.success reports := by
  obtain ⟨col, hcol, hnot⟩ := h
  have hmem : col ∈ missing_columns columns := by
    rw [missing_columns]
    refine List.mem_filter.mpr ⟨hcol, ?_⟩
    simp only [Bool.not_eq_true']
    rw [← Bool.not_eq_true]
    intro hcontains
    exact hnot (List.mem_of_elem_eq_true (by simpa using hcontains))
  have hmiss : missing_columns columns ≠ [] := List.ne_nil_of_mem hmem
  simp only [main_program]
  rw [if_pos hmiss]
  exact ⟨rfl, fun reports hcon => MainResult.noConfusion hcon⟩

theorem C7_witness :
    (∃ col ∈ required_columns, col ∉ (["name"] : List String)) ∧
    (main_program ["name"] sampleDf =
      MainResult.missingColumnsError
        ("Error: Missing required columns: " ++
          String.intercalate ", " (missing_columns ["name"])) ∧
    ∀ reports, main_program ["name"] sampleDf ≠ MainResult.success reports) :=
  ⟨by decide, C7_missing_columns_halt ["name"] sampleDf (by decide)⟩

end AmazonReport
